import Mathlib

/-!
Shallow embedding of the spin-state engine of `src/lib/spin-state.ts`
(ebay-randomiser).  Pure functions mirror the TypeScript source line by
line; the external effects are made explicit parameters:

* the SHA-256 content hash of the item list is an opaque function
  parameter `hash : List String → String` (the source only ever compares
  hashes for equality, so no property of SHA-256 is needed);
* wall-clock time (`nowIso()`) is a `now : String` parameter;
* `crypto.randomInt(n)` — documented to return a cryptographically
  uniform integer in `[0, n)` — is a `selectedIndex`/`winnerIndex : Nat`
  parameter, with in-range hypotheses where theorems need them;
* the key-value store is factored out: each exported operation in the
  source reads the stored state through `ensureState` and writes the
  result back, so operations here act on the reconciled state directly
  and `ensureState` takes the stored blob as an `Option` argument.

Machine integers: the source uses JS numbers only as array indices,
counters and lengths, all far below 2^53, so `Nat` models them exactly.
-/

namespace EbayRandomiser

/-- The `SpinRecord` type of the source (lines 12–18). -/
structure SpinRecord where
  auctionNumber : String
  username : String
  item : String
  spunAt : String
  version : Nat
deriving DecidableEq, Repr

/-- The `BuyersGiveawayState` type of the source (lines 20–26). -/
structure BuyersGiveawayState where
  itemName : String
  winnerUsername : String
  sourceEntryCount : Nat
  ranAt : String
  version : Nat
deriving DecidableEq, Repr

/-- The `PersistedSpinState` type of the source (lines 28–41).
The field `recentBulkResults` is modelled from the spec: the bulk-draw
capable revision of `spin-state.ts` is not under `src/` (only its
callers are, e.g. the spin-status route reading
`state.recentBulkResults` and the view posting `action: bulkSpin`); the
spec describes it as the most recent bulk-draw batch, carried over by
reconciliation. -/
structure PersistedSpinState where
  items : List String
  pool : List String
  selectedItem : Option String
  version : Nat
  updatedAt : String
  configHash : String
  isOffline : Bool
  isTestingMode : Bool
  lastSpin : Option SpinRecord
  history : List SpinRecord
  recentBulkResults : List SpinRecord
  buyersGiveaway : Option BuyersGiveawayState
  currentBuyersGiveawayItem : Option String
deriving DecidableEq, Repr

/-- The public `SpinState` type of the source (lines 43–55): everything
except the internal `configHash`. -/
structure SpinState where
  items : List String
  pool : List String
  selectedItem : Option String
  version : Nat
  updatedAt : String
  isOffline : Bool
  isTestingMode : Bool
  lastSpin : Option SpinRecord
  history : List SpinRecord
  recentBulkResults : List SpinRecord
  buyersGiveaway : Option BuyersGiveawayState
  currentBuyersGiveawayItem : Option String
deriving DecidableEq, Repr

/-- The `SpinMetaInput` type of the source (lines 57–60). -/
structure SpinMetaInput where
  auctionNumber : String
  username : String
deriving DecidableEq, Repr

/-- Constant `MAX_HISTORY` (line 10). -/
def MAX_HISTORY : Nat := 200

/-- JS `String.prototype.trim()`: strip leading and trailing whitespace.
Defined by structural recursion over the character list so that the
kernel can evaluate it (Lean's own `String.trim` walks byte positions
and does not reduce). -/
def jsTrim (s : String) : String :=
  ⟨((s.data.dropWhile Char.isWhitespace).reverse.dropWhile Char.isWhitespace).reverse⟩

/-- JS `String.prototype.toLowerCase()` on the ASCII identifiers used
here, character by character. -/
def jsToLower (s : String) : String :=
  ⟨s.data.map Char.toLower⟩

/-- Parse a string of decimal digits to a natural number (the JS
integer parse used on auction numbers); `none` on the empty string or
any non-digit character. -/
def jsToNatAux : List Char → Nat → Option Nat
  | [], acc => some acc
  | c :: cs, acc =>
    if c.isDigit then jsToNatAux cs (acc * 10 + (c.toNat - 48))
    else none

/-- See `jsToNatAux`. -/
def jsToNat (s : String) : Option Nat :=
  match s.data with
  | [] => none
  | l => jsToNatAux l 0

/-- Source `buildInitialState(items, version)` (lines 79–94).  `hash` stands for
`hashItems` (SHA-256 of the joined list), `now` for `nowIso()`. -/
def buildInitialState (hash : List String → String) (items : List String)
    (now : String) (version : Nat) : PersistedSpinState :=
  { items := items
    pool := items
    selectedItem := none
    version := version
    updatedAt := now
    configHash := hash items
    isOffline := false
    isTestingMode := false
    lastSpin := none
    history := []
    recentBulkResults := []
    buyersGiveaway := none
    currentBuyersGiveawayItem := none }

/-- Source `toPublicState(state)` (lines 113–127). -/
def toPublicState (state : PersistedSpinState) : SpinState :=
  { items := state.items
    pool := state.pool
    selectedItem := state.selectedItem
    version := state.version
    updatedAt := state.updatedAt
    isOffline := state.isOffline
    isTestingMode := state.isTestingMode
    lastSpin := state.lastSpin
    history := state.history
    recentBulkResults := state.recentBulkResults
    buyersGiveaway := state.buyersGiveaway
    currentBuyersGiveawayItem := state.currentBuyersGiveawayItem }

/-- Source `sanitizeMeta(meta)` (lines 129–134). -/
def sanitizeMeta (meta : SpinMetaInput) : SpinMetaInput :=
  { auctionNumber := jsTrim meta.auctionNumber
    username := jsTrim meta.username }

/-- One `remaining.set(item, remaining.get(item) + 1)` step of the
counting loop in `isPoolValidForItems` (lines 138–140); the
`Map<string, number>` with `?? 0` default is a total function
`String → Nat`. -/
def bumpCount (m : String → Nat) (item : String) : String → Nat :=
  fun k => if k = item then m k + 1 else m k

/-- The first loop of `isPoolValidForItems` (lines 137–140): build the
multiplicity map of `items`. -/
def countMapOf (items : List String) : String → Nat :=
  items.foldl bumpCount (fun _ => 0)

/-- One `remaining.set(item, count - 1)` step of the consuming loop in
`isPoolValidForItems` (line 147). -/
def dropCount (m : String → Nat) (item : String) : String → Nat :=
  fun k => if k = item then m k - 1 else m k

/-- The second loop of `isPoolValidForItems` (lines 142–148): walk the
pool decrementing multiplicities, failing when a count would go
negative (`count <= 0` on a JS number with `?? 0` default is `= 0` on
`Nat`). -/
def consumePool : List String → (String → Nat) → Bool
  | [], _ => true
  | item :: rest, m =>
    if m item = 0 then false
    else consumePool rest (dropCount m item)

/-- Source `isPoolValidForItems(pool, items)` (lines 136–151). -/
def isPoolValidForItems (pool items : List String) : Bool :=
  consumePool pool (countMapOf items)

/-- Source `ensureState()` (lines 249–279).  `configItems` is the freshly read
expanded catalog, `stored` the blob read from the store (`none` when the
key is absent).  The carry-over of `recentBulkResults` on rebuild is
modelled from the spec: reconciliation preserves `isOffline`,
`isTestingMode`, `history`, `recentBulkResults`, `lastSpin`,
`buyersGiveaway`, `currentBuyersGiveawayItem`. -/
def ensureState (hash : List String → String) (configItems : List String)
    (stored : Option PersistedSpinState) (now : String) : PersistedSpinState :=
  let configHash := hash configItems
  match stored with
  | none => buildInitialState hash configItems now 1
  | some stored =>
    let needsConfigRefresh : Bool := stored.configHash ≠ configHash
    let needsPoolRepair : Bool := ! isPoolValidForItems stored.pool configItems
    if needsConfigRefresh || needsPoolRepair then
      { buildInitialState hash configItems now (stored.version + 1) with
        isOffline := stored.isOffline
        isTestingMode := stored.isTestingMode
        history := stored.history
        recentBulkResults := stored.recentBulkResults
        lastSpin := stored.lastSpin
        buyersGiveaway := stored.buyersGiveaway
        currentBuyersGiveawayItem := stored.currentBuyersGiveawayItem }
    else stored

/-- Source `getSpinState()` (lines 281–284). -/
def getSpinState (hash : List String → String) (configItems : List String)
    (stored : Option PersistedSpinState) (now : String) : SpinState :=
  toPublicState (ensureState hash configItems stored now)

/-- The duplicate-auction error message of `spinOnce` (lines 299–301). -/
def duplicateAuctionError (auctionNumber : String) : String :=
  s!"Auction number {auctionNumber} already exists. Use a unique auction number or ask owner to enable testing mode."

/-- The `history.some(...)` duplicate check of `spinOnce` (lines
295–297). -/
def auctionNumberExists (history : List SpinRecord) (auctionNumber : String) : Bool :=
  history.any (fun record => jsToLower record.auctionNumber = jsToLower auctionNumber)

/-- Source `spinOnce(meta)` (lines 286–339), acting on the reconciled state.
`selectedIndex` stands for `randomInt(state.pool.length)`; the source
guarantees `selectedIndex < state.pool.length`, and `List.getD` supplies
a default that is never reached under that bound.  `nextPool` is
`state.pool.filter((_, index) => index !== selectedIndex)`, i.e. the
removal of position `selectedIndex`. -/
def spinOnce (state : PersistedSpinState) (meta : SpinMetaInput)
    (now : String) (selectedIndex : Nat) : Except String PersistedSpinState :=
  let cleanMeta := sanitizeMeta meta
  if cleanMeta.auctionNumber = "" ∨ cleanMeta.username = "" then
    .error "Auction number and username are required."
  else if ! state.isTestingMode ∧ auctionNumberExists state.history cleanMeta.auctionNumber then
    .error (duplicateAuctionError cleanMeta.auctionNumber)
  else if state.pool.length = 0 then
    .ok state
  else
    let selectedItem := state.pool.getD selectedIndex ""
    let nextPool := state.pool.eraseIdx selectedIndex
    let nextVersion := state.version + 1
    let record : SpinRecord :=
      { auctionNumber := cleanMeta.auctionNumber
        username := cleanMeta.username
        item := selectedItem
        spunAt := now
        version := nextVersion }
    .ok { state with
          pool := nextPool
          selectedItem := some selectedItem
          version := nextVersion
          updatedAt := record.spunAt
          lastSpin := some record
          history := (record :: state.history).take MAX_HISTORY }

/-- Source `resetSpinState()` (lines 341–358), acting on the reconciled
state. -/
def resetSpinState (state : PersistedSpinState) (now : String) : PersistedSpinState :=
  { state with
    pool := state.items
    selectedItem := none
    version := state.version + 1
    updatedAt := now }

/-- Source `resetSpinStateFromItems(items)` (lines 360–375): rebuild from a
caller-supplied list, reading the store directly (no reconciliation). -/
def resetSpinStateFromItems (hash : List String → String) (items : List String)
    (stored : Option PersistedSpinState) (now : String) : PersistedSpinState :=
  let base := buildInitialState hash items now ((match stored with
    | some s => s.version
    | none => 0) + 1)
  match stored with
  | some s =>
    { base with
      isOffline := s.isOffline
      isTestingMode := s.isTestingMode
      history := s.history
      lastSpin := s.lastSpin
      buyersGiveaway := s.buyersGiveaway
      currentBuyersGiveawayItem := s.currentBuyersGiveawayItem }
  | none => base

/-- Source `setPublicOffline(isOffline)` (lines 377–390), acting on the
reconciled state. -/
def setPublicOffline (state : PersistedSpinState) (isOffline : Bool)
    (now : String) : PersistedSpinState :=
  { state with
    isOffline := isOffline
    version := state.version + 1
    updatedAt := now }

/-- Source `setTestingMode(isTestingMode)` (lines 392–405), acting on the
reconciled state. -/
def setTestingMode (state : PersistedSpinState) (isTestingMode : Bool)
    (now : String) : PersistedSpinState :=
  { state with
    isTestingMode := isTestingMode
    version := state.version + 1
    updatedAt := now }

/-- Source `clearSpinHistory()` (lines 407–422), acting on the reconciled
state.  Clearing `recentBulkResults` is modelled from the spec (§4.4:
clears history, bulk results, selected item and giveaway state). -/
def clearSpinHistory (state : PersistedSpinState) (now : String) : PersistedSpinState :=
  { state with
    lastSpin := none
    history := []
    recentBulkResults := []
    selectedItem := none
    buyersGiveaway := none
    currentBuyersGiveawayItem := none
    version := state.version + 1
    updatedAt := now }

/-- Source `resetPoolAndClearHistory()` (lines 424–440), acting on the
reconciled state.  Clearing `recentBulkResults` is modelled from the
spec (§4.4). -/
def resetPoolAndClearHistory (state : PersistedSpinState) (now : String) : PersistedSpinState :=
  { state with
    pool := state.items
    selectedItem := none
    lastSpin := none
    history := []
    recentBulkResults := []
    buyersGiveaway := none
    currentBuyersGiveawayItem := none
    version := state.version + 1
    updatedAt := now }

/-- The apostrophe character, kept out of string literals. -/
def apos : String := String.singleton (Char.ofNat 39)

/-- The error message of `setCurrentBuyersGiveawayItem` (line 447). -/
def giveawayItemRequiredError : String :=
  "Buyer" ++ apos ++ "s giveaway item name is required."

/-- Source `setCurrentBuyersGiveawayItem(itemName)` (lines 442–459), acting on
the reconciled state. -/
def setCurrentBuyersGiveawayItem (state : PersistedSpinState) (itemName : String)
    (now : String) : Except String PersistedSpinState :=
  let cleanItemName := jsTrim itemName
  if cleanItemName = "" then
    .error giveawayItemRequiredError
  else
    .ok { state with
          currentBuyersGiveawayItem := some cleanItemName
          version := state.version + 1
          updatedAt := now }

/-- The no-prize error message of `runBuyersGiveaway` (line 466). -/
def giveawaySetItemFirstError : String :=
  "Set a buyer" ++ apos ++ "s giveaway item first."

/-- The empty-history error message of `runBuyersGiveaway` (line 469). -/
def giveawayNoEntriesError : String :=
  "No auction entries available for buyer" ++ apos ++ "s giveaway."

/-- The JS truthiness chain `itemName?.trim() ||
state.currentBuyersGiveawayItem?.trim() || ""` (line 463). -/
def resolveGiveawayItemName (override : Option String)
    (current : Option String) : String :=
  let fromOverride := (override.map jsTrim).getD ""
  if fromOverride ≠ "" then fromOverride
  else (current.map jsTrim).getD ""

/-- Source `runBuyersGiveaway(itemName?)` (lines 461–494), acting on the
reconciled state.  `winnerIndex` stands for
`randomInt(entries.length)`. -/
def runBuyersGiveaway (state : PersistedSpinState) (itemNameOverride : Option String)
    (now : String) (winnerIndex : Nat) : Except String PersistedSpinState :=
  let cleanItemName := resolveGiveawayItemName itemNameOverride state.currentBuyersGiveawayItem
  if cleanItemName = "" then
    .error giveawaySetItemFirstError
  else if state.history.length = 0 then
    .error giveawayNoEntriesError
  else
    let entries := state.history.map (fun record => record.username)
    let winnerUsername := entries.getD winnerIndex ""
    let nextVersion := state.version + 1
    .ok { state with
          buyersGiveaway := some
            { itemName := cleanItemName
              winnerUsername := winnerUsername
              sourceEntryCount := entries.length
              ranAt := now
              version := nextVersion }
          currentBuyersGiveawayItem := none
          version := nextVersion
          updatedAt := now }

/-- Modelled from the spec: the draw loop of the bulk-draw operation
`spinBulk` (§4.3), whose implementation is not under `src/` (only its
callers are).  Each iteration performs the same uniform removal as the
single draw against the working pool, building a record with the next
sequential auction number and the next version, prepending it to the
history (truncated to 200) and appending it to the results batch.
`indices` supplies one random index per iteration. -/
def bulkDrawLoop (username now : String) :
    Nat → Nat → Nat → List Nat → List String → List SpinRecord → List SpinRecord →
    List String × List SpinRecord × List SpinRecord
  | 0, _, _, _, pool, history, results => (pool, history, results)
  | draws + 1, auctionNum, version, indices, pool, history, results =>
    let idx := indices.headD 0
    let item := pool.getD idx ""
    let record : SpinRecord :=
      { auctionNumber := toString auctionNum
        username := username
        item := item
        spunAt := now
        version := version + 1 }
    bulkDrawLoop username now draws (auctionNum + 1) (version + 1) indices.tail
      (pool.eraseIdx idx) ((record :: history).take MAX_HISTORY) (results ++ [record])

/-- Modelled from the spec: the bulk draw `spinBulk` (§4.3), missing
from `src/`.  Inputs: a starting auction number that must parse to a
positive integer, a username, and a `count` in the inclusive range 1–10.
Unless testing mode is on, all `count` sequential auction numbers are
checked against the history before any draw, so a collision aborts the
whole batch.  An empty pool returns the state unchanged with an empty
results list; otherwise the number of draws is clamped to the pool size,
the batch replaces `recentBulkResults`, and `selectedItem`/`lastSpin`
are the final draw. -/
def spinBulk (state : PersistedSpinState) (auctionNumberStart username : String)
    (count : Int) (now : String) (indices : List Nat) :
    Except String (PersistedSpinState × List SpinRecord) :=
  let cleanStart := jsTrim auctionNumberStart
  let cleanUsername := jsTrim username
  if cleanStart = "" ∨ cleanUsername = "" then
    .error "Auction number and username are required."
  else
    match jsToNat cleanStart with
    | none => .error "Starting auction number must be a positive whole number."
    | some start =>
      if start = 0 then
        .error "Starting auction number must be a positive whole number."
      else if count < 1 ∨ count > 10 then
        .error "Bulk spin count must be a whole number between 1 and 10."
      else
        let countN := count.toNat
        let collisions := (List.range countN).filter
          (fun k => auctionNumberExists state.history (toString (start + k)))
        if ! state.isTestingMode ∧ collisions ≠ [] then
          .error (duplicateAuctionError (toString (start + collisions.headD 0)))
        else if state.pool.length = 0 then
          .ok (state, [])
        else
          let draws := min countN state.pool.length
          let stepped := bulkDrawLoop cleanUsername now draws start state.version
            indices state.pool state.history []
          let results := stepped.2.2
          .ok ({ state with
                 pool := stepped.1
                 history := stepped.2.1
                 recentBulkResults := results
                 selectedItem := (results.getLast?).map (fun r => r.item)
                 lastSpin := results.getLast?
                 version := state.version + draws
                 updatedAt := now }, results)

/-- The states reachable by sequences of the engine operations listed in
the spec: initial creation, reconciliation, single draw, resets, mode
toggles, and the giveaway operations. -/
inductive Reachable (hash : List String → String) : PersistedSpinState → Prop
  | init (configItems : List String) (now : String) :
      Reachable hash (ensureState hash configItems none now)
  | reconcile (s : PersistedSpinState) (configItems : List String) (now : String) :
      Reachable hash s → Reachable hash (ensureState hash configItems (some s) now)
  | spin (s : PersistedSpinState) (meta : SpinMetaInput) (now : String)
      (selectedIndex : Nat) (s2 : PersistedSpinState) :
      Reachable hash s → spinOnce s meta now selectedIndex = .ok s2 → Reachable hash s2
  | reset (s : PersistedSpinState) (now : String) :
      Reachable hash s → Reachable hash (resetSpinState s now)
  | resetFromItems (s : PersistedSpinState) (items : List String) (now : String) :
      Reachable hash s → Reachable hash (resetSpinStateFromItems hash items (some s) now)
  | resetFromItemsEmptyStore (items : List String) (now : String) :
      Reachable hash (resetSpinStateFromItems hash items none now)
  | offline (s : PersistedSpinState) (b : Bool) (now : String) :
      Reachable hash s → Reachable hash (setPublicOffline s b now)
  | testing (s : PersistedSpinState) (b : Bool) (now : String) :
      Reachable hash s → Reachable hash (setTestingMode s b now)
  | clearHistory (s : PersistedSpinState) (now : String) :
      Reachable hash s → Reachable hash (clearSpinHistory s now)
  | hardReset (s : PersistedSpinState) (now : String) :
      Reachable hash s → Reachable hash (resetPoolAndClearHistory s now)
  | setGiveawayItem (s : PersistedSpinState) (name now : String) (s2 : PersistedSpinState) :
      Reachable hash s → setCurrentBuyersGiveawayItem s name now = .ok s2 → Reachable hash s2
  | giveaway (s : PersistedSpinState) (o : Option String) (now : String)
      (winnerIndex : Nat) (s2 : PersistedSpinState) :
      Reachable hash s → runBuyersGiveaway s o now winnerIndex = .ok s2 → Reachable hash s2

/-! ### Counting lemmas for `isPoolValidForItems` -/

theorem foldl_bumpCount (l : List String) (m : String → Nat) (s : String) :
    (l.foldl bumpCount m) s = m s + l.count s := by
  induction l generalizing m with
  | nil => simp
  | cons a t ih =>
    rw [List.foldl_cons, ih]
    simp only [bumpCount]
    by_cases h : s = a
    · subst h
      rw [if_pos rfl, List.count_cons_self]
      omega
    · rw [if_neg h, List.count_cons_of_ne h]

theorem countMapOf_eq (items : List String) (s : String) :
    countMapOf items s = items.count s := by
  simpa using foldl_bumpCount items (fun _ => 0) s

theorem consumePool_iff (pool : List String) (m : String → Nat) :
    consumePool pool m = true ↔ ∀ s, pool.count s ≤ m s := by
  induction pool generalizing m with
  | nil => simp [consumePool]
  | cons a t ih =>
    simp only [consumePool]
    by_cases ha : m a = 0
    · rw [if_pos ha]
      constructor
      · intro h; cases h
      · intro h
        have := h a
        rw [List.count_cons_self] at this
        omega
    · rw [if_neg ha, ih]
      constructor
      · intro h s
        have hs := h s
        simp only [dropCount] at hs
        by_cases hsa : s = a
        · subst hsa
          rw [if_pos rfl] at hs
          rw [List.count_cons_self]
          omega
        · rw [if_neg hsa] at hs
          rw [List.count_cons_of_ne hsa]
          exact hs
      · intro h s
        simp only [dropCount]
        by_cases hsa : s = a
        · subst hsa
          have hs := h s
          rw [List.count_cons_self] at hs
          rw [if_pos rfl]
          omega
        · have hs := h s
          rw [List.count_cons_of_ne hsa] at hs
          rw [if_neg hsa]
          exact hs

theorem isPoolValidForItems_iff (pool items : List String) :
    isPoolValidForItems pool items = true ↔ ∀ s, pool.count s ≤ items.count s := by
  unfold isPoolValidForItems
  rw [consumePool_iff]
  constructor <;> intro h s <;> have := h s <;> simpa [countMapOf_eq] using this

theorem isPoolValidForItems_self (l : List String) :
    isPoolValidForItems l l = true := by
  rw [isPoolValidForItems_iff]
  intro s; exact le_refl _

theorem isPoolValidForItems_eraseIdx (pool items : List String) (i : Nat)
    (h : isPoolValidForItems pool items = true) :
    isPoolValidForItems (pool.eraseIdx i) items = true := by
  rw [isPoolValidForItems_iff] at h ⊢
  intro s
  exact le_trans ((List.eraseIdx_sublist pool i).count_le s) (h s)

/-! ### Inversion lemmas for the fallible operations -/

theorem spinOnce_ok_pool_items (s : PersistedSpinState) (meta : SpinMetaInput)
    (now : String) (r : Nat) (s2 : PersistedSpinState)
    (h : spinOnce s meta now r = .ok s2) :
    s2.items = s.items ∧ (s2.pool = s.pool ∨ s2.pool = s.pool.eraseIdx r) := by
  unfold spinOnce at h
  simp only [] at h
  split at h
  · cases h
  · split at h
    · cases h
    · split at h
      · injection h with h
        subst h
        exact ⟨rfl, Or.inl rfl⟩
      · injection h with h
        subst h
        exact ⟨rfl, Or.inr rfl⟩

theorem setCurrentBuyersGiveawayItem_ok_pool_items (s : PersistedSpinState)
    (name now : String) (s2 : PersistedSpinState)
    (h : setCurrentBuyersGiveawayItem s name now = .ok s2) :
    s2.items = s.items ∧ s2.pool = s.pool := by
  unfold setCurrentBuyersGiveawayItem at h
  simp only [] at h
  split at h
  · cases h
  · injection h with h
    subst h
    exact ⟨rfl, rfl⟩

theorem runBuyersGiveaway_ok_pool_items (s : PersistedSpinState)
    (o : Option String) (now : String) (w : Nat) (s2 : PersistedSpinState)
    (h : runBuyersGiveaway s o now w = .ok s2) :
    s2.items = s.items ∧ s2.pool = s.pool := by
  unfold runBuyersGiveaway at h
  simp only [] at h
  split at h
  · cases h
  · split at h
    · cases h
    · injection h with h
      subst h
      exact ⟨rfl, rfl⟩

/-- C2: for every state reachable by any sequence of the engine
operations (initial creation, reconciliation, single draw, resets, mode
toggles, giveaway), the pool is a valid sub-multiset of the items:
`isPoolValidForItems pool items` holds after every operation. -/
theorem reachable_pool_valid (hash : List String → String) (s : PersistedSpinState)
    (h : Reachable hash s) : isPoolValidForItems s.pool s.items = true := by
  induction h with
  | init configItems now =>
    exact isPoolValidForItems_self configItems
  | reconcile s configItems now hr ih =>
    unfold ensureState
    simp only []
    split
    · exact isPoolValidForItems_self configItems
    · exact ih
  | spin s meta now r s2 hr hok ih =>
    obtain ⟨hitems, hpool⟩ := spinOnce_ok_pool_items s meta now r s2 hok
    rw [hitems]
    rcases hpool with hp | hp
    · rw [hp]; exact ih
    · rw [hp]; exact isPoolValidForItems_eraseIdx s.pool s.items r ih
  | reset s now hr ih =>
    exact isPoolValidForItems_self s.items
  | resetFromItems s items now hr ih =>
    exact isPoolValidForItems_self items
  | resetFromItemsEmptyStore items now =>
    exact isPoolValidForItems_self items
  | offline s b now hr ih => exact ih
  | testing s b now hr ih => exact ih
  | clearHistory s now hr ih => exact ih
  | hardReset s now hr ih =>
    exact isPoolValidForItems_self s.items
  | setGiveawayItem s name now s2 hr hok ih =>
    obtain ⟨hitems, hpool⟩ := setCurrentBuyersGiveawayItem_ok_pool_items s name now s2 hok
    rw [hitems, hpool]; exact ih
  | giveaway s o now w s2 hr hok ih =>
    obtain ⟨hitems, hpool⟩ := runBuyersGiveaway_ok_pool_items s o now w s2 hok
    rw [hitems, hpool]; exact ih

/-! ### Claim theorems -/

/-- C1: for every stored state and fresh catalog item list, if the
stored `configHash` differs from the freshly computed hash or the stored
pool is not a valid sub-multiset of the fresh items, `ensureState`
returns a rebuilt state with `pool` equal to the fresh items,
`selectedItem` null, and `version` equal to the previous version plus
one, while `isOffline`, `isTestingMode`, `history`,
`recentBulkResults`, `lastSpin`, `buyersGiveaway` and
`currentBuyersGiveawayItem` are carried over unchanged. -/
theorem ensureState_rebuild_preserves_bookkeeping
    (hash : List String → String) (st : PersistedSpinState)
    (freshItems : List String) (now : String)
    (h : st.configHash ≠ hash freshItems ∨ isPoolValidForItems st.pool freshItems = false) :
    (ensureState hash freshItems (some st) now).pool = freshItems ∧
    (ensureState hash freshItems (some st) now).selectedItem = none ∧
    (ensureState hash freshItems (some st) now).version = st.version + 1 ∧
    (ensureState hash freshItems (some st) now).isOffline = st.isOffline ∧
    (ensureState hash freshItems (some st) now).isTestingMode = st.isTestingMode ∧
    (ensureState hash freshItems (some st) now).history = st.history ∧
    (ensureState hash freshItems (some st) now).recentBulkResults = st.recentBulkResults ∧
    (ensureState hash freshItems (some st) now).lastSpin = st.lastSpin ∧
    (ensureState hash freshItems (some st) now).buyersGiveaway = st.buyersGiveaway ∧
    (ensureState hash freshItems (some st) now).currentBuyersGiveawayItem
      = st.currentBuyersGiveawayItem := by
  unfold ensureState
  simp only []
  split
  · exact ⟨rfl, rfl, rfl, rfl, rfl, rfl, rfl, rfl, rfl, rfl⟩
  · rename_i hcond
    exfalso
    simp only [Bool.or_eq_true, decide_eq_true_eq, Bool.not_eq_true] at hcond
    rcases h with h | h
    · exact hcond (Or.inl (by simpa using h))
    · exact hcond (Or.inr (by simpa using h))

/-- C3: for every state whose history contains a record matching the
trimmed input auction number case-insensitively, `spinOnce` with
`isTestingMode = false` fails with the error naming the conflicting
auction number (and, the function being pure and the source throwing
before any store write, no mutation occurs), while the same call on the
same state with `isTestingMode = true` succeeds. -/
theorem spinOnce_duplicate_auction (st : PersistedSpinState) (meta : SpinMetaInput)
    (now : String) (r : Nat)
    (hA : (sanitizeMeta meta).auctionNumber ≠ "")
    (hU : (sanitizeMeta meta).username ≠ "")
    (hdup : auctionNumberExists st.history (sanitizeMeta meta).auctionNumber = true) :
    (st.isTestingMode = false →
      spinOnce st meta now r
        = .error (duplicateAuctionError (sanitizeMeta meta).auctionNumber)) ∧
    (∃ s2, spinOnce { st with isTestingMode := true } meta now r = .ok s2) := by
  constructor
  · intro hmode
    unfold spinOnce
    simp only []
    rw [if_neg (by push_neg; exact ⟨hA, hU⟩)]
    rw [if_pos ⟨by simp [hmode], hdup⟩]
  · unfold spinOnce
    simp only []
    rw [if_neg (by push_neg; exact ⟨hA, hU⟩)]
    rw [if_neg (by simp)]
    by_cases hp : st.pool.length = 0
    · rw [if_pos hp]
      exact ⟨_, rfl⟩
    · rw [if_neg hp]
      exact ⟨_, rfl⟩

/-- C4: for every state with non-empty pool and valid inputs,
`spinOnce` removes exactly the selected entry from the pool (the entry
at the random index, the pool shrinking by one), sets it as
`selectedItem`, builds a `SpinRecord` carrying the new version and the
current timestamp, prepends it to the history truncated to 200 entries,
sets it as `lastSpin`, and increments the version by one. -/
theorem spinOnce_success_effects (st : PersistedSpinState) (meta : SpinMetaInput)
    (now : String) (r : Nat)
    (hA : (sanitizeMeta meta).auctionNumber ≠ "")
    (hU : (sanitizeMeta meta).username ≠ "")
    (hgate : st.isTestingMode = true ∨
      auctionNumberExists st.history (sanitizeMeta meta).auctionNumber = false)
    (hpool : st.pool ≠ []) (hr : r < st.pool.length) :
    ∃ s2, spinOnce st meta now r = .ok s2 ∧
      s2.pool = st.pool.eraseIdx r ∧
      s2.pool.length + 1 = st.pool.length ∧
      s2.selectedItem = some (st.pool.getD r "") ∧
      s2.lastSpin = some
        { auctionNumber := (sanitizeMeta meta).auctionNumber
          username := (sanitizeMeta meta).username
          item := st.pool.getD r ""
          spunAt := now
          version := st.version + 1 } ∧
      s2.history = ({ auctionNumber := (sanitizeMeta meta).auctionNumber
                      username := (sanitizeMeta meta).username
                      item := st.pool.getD r ""
                      spunAt := now
                      version := st.version + 1 : SpinRecord }
                    :: st.history).take MAX_HISTORY ∧
      s2.version = st.version + 1 := by
  unfold spinOnce
  simp only []
  rw [if_neg (by push_neg; exact ⟨hA, hU⟩)]
  rw [if_neg (by rcases hgate with h | h <;> simp [h])]
  rw [if_neg (by simpa [List.length_eq_zero] using hpool)]
  refine ⟨_, rfl, rfl, ?_, rfl, rfl, rfl, rfl⟩
  have := List.length_eraseIdx_of_lt hr
  simp only [this]
  omega

/-- C6: for every state with an empty pool and otherwise valid inputs,
the single draw is not an error: it returns the current state itself,
so `pool`, `selectedItem` and `version` are all unchanged. -/
theorem spinOnce_empty_pool_noop (st : PersistedSpinState) (meta : SpinMetaInput)
    (now : String) (r : Nat)
    (hA : (sanitizeMeta meta).auctionNumber ≠ "")
    (hU : (sanitizeMeta meta).username ≠ "")
    (hgate : st.isTestingMode = true ∨
      auctionNumberExists st.history (sanitizeMeta meta).auctionNumber = false)
    (hpool : st.pool = []) :
    spinOnce st meta now r = .ok st := by
  unfold spinOnce
  simp only []
  rw [if_neg (by push_neg; exact ⟨hA, hU⟩)]
  rw [if_neg (by rcases hgate with h | h <;> simp [h])]
  rw [if_pos (by simp [hpool])]

/-- C10: in `spinOnce` the input validation and the auction-uniqueness
check run before the empty-pool check: with an empty pool, a
blank-after-trim auction number or username yields the validation
error, and (with testing mode off) a duplicate auction number yields
the duplicate error, rather than the empty-pool no-op. -/
theorem spinOnce_checks_precede_empty_pool (st : PersistedSpinState)
    (meta : SpinMetaInput) (now : String) (r : Nat) (hpool : st.pool = []) :
    ((sanitizeMeta meta).auctionNumber = "" ∨ (sanitizeMeta meta).username = "" →
      spinOnce st meta now r = .error "Auction number and username are required.") ∧
    (st.isTestingMode = false →
      auctionNumberExists st.history (sanitizeMeta meta).auctionNumber = true →
      (sanitizeMeta meta).auctionNumber ≠ "" → (sanitizeMeta meta).username ≠ "" →
      spinOnce st meta now r
        = .error (duplicateAuctionError (sanitizeMeta meta).auctionNumber)) := by
  constructor
  · intro hblank
    unfold spinOnce
    simp only []
    rw [if_pos hblank]
  · intro hmode hdup hA hU
    unfold spinOnce
    simp only []
    rw [if_neg (by push_neg; exact ⟨hA, hU⟩)]
    rw [if_pos ⟨by simp [hmode], hdup⟩]

/-- C7: the operation `runBuyersGiveaway` resolves the prize name from the optional
override, falling back to `currentBuyersGiveawayItem` (the JS
truthiness chain `resolveGiveawayItemName`); it errors when neither
yields a non-blank name, errors when the history is empty, and on
success draws the winner from the non-deduplicated list of usernames of
every history record, records `sourceEntryCount` equal to that list
length, clears `currentBuyersGiveawayItem`, and increments the
version. -/
theorem runBuyersGiveaway_spec (st : PersistedSpinState) (o : Option String)
    (now : String) (w : Nat) :
    (∀ x cur, jsTrim x ≠ "" → resolveGiveawayItemName (some x) cur = jsTrim x) ∧
    (∀ cur, resolveGiveawayItemName none cur = (cur.map jsTrim).getD "") ∧
    (resolveGiveawayItemName o st.currentBuyersGiveawayItem = "" →
      runBuyersGiveaway st o now w = .error giveawaySetItemFirstError) ∧
    (resolveGiveawayItemName o st.currentBuyersGiveawayItem ≠ "" → st.history = [] →
      runBuyersGiveaway st o now w = .error giveawayNoEntriesError) ∧
    (∀ s2, runBuyersGiveaway st o now w = .ok s2 →
      s2.buyersGiveaway = some
        { itemName := resolveGiveawayItemName o st.currentBuyersGiveawayItem
          winnerUsername := (st.history.map (fun record => record.username)).getD w ""
          sourceEntryCount := (st.history.map (fun record => record.username)).length
          ranAt := now
          version := st.version + 1 } ∧
      s2.currentBuyersGiveawayItem = none ∧
      s2.version = st.version + 1) := by
  refine ⟨?_, ?_, ?_, ?_, ?_⟩
  · intro x cur hx
    simp [resolveGiveawayItemName, hx]
  · intro cur
    unfold resolveGiveawayItemName
    simp
  · intro hblank
    unfold runBuyersGiveaway
    simp only []
    rw [if_pos hblank]
  · intro hname hhist
    unfold runBuyersGiveaway
    simp only []
    rw [if_neg hname]
    rw [if_pos (by simp [hhist])]
  · intro s2 h
    unfold runBuyersGiveaway at h
    simp only [] at h
    split at h
    · cases h
    · split at h
      · cases h
      · injection h with h
        subst h
        exact ⟨rfl, rfl, rfl⟩

/-- The results batch of the bulk-draw loop grows by exactly one record
per draw performed. -/
theorem bulkDrawLoop_results_length (username now : String) :
    ∀ (draws auctionNum version : Nat) (indices : List Nat) (pool : List String)
      (history results : List SpinRecord),
      (bulkDrawLoop username now draws auctionNum version indices pool history
        results).2.2.length = results.length + draws := by
  intro draws
  induction draws with
  | zero =>
    intro auctionNum version indices pool history results
    rfl
  | succ d ih =>
    intro auctionNum version indices pool history results
    simp only [bulkDrawLoop]
    rw [ih]
    simp only [List.length_append, List.length_cons, List.length_nil]
    omega

/-- C8 (amended): the version counter is never decremented and is left
unchanged by non-mutating reads (`getSpinState` on a stored state that
needs no reconciliation returns the stored version, and `ensureState`
either returns the stored state or bumps by exactly one on rebuild); a
successful `spinOnce` either returns the state unchanged (empty pool,
no write) or bumps by exactly one; each reset, toggle and giveaway
operation bumps by exactly one; and the bulk draw bumps by exactly one
per draw performed in its batch — the length of the returned results
list — in a single call, rather than by one per call. -/
theorem version_monotonic_amended (hash : List String → String) :
    (∀ (cfg : List String) (st : PersistedSpinState) (now : String),
      (st.configHash = hash cfg → isPoolValidForItems st.pool cfg = true →
        (getSpinState hash cfg (some st) now).version = st.version) ∧
      ((ensureState hash cfg (some st) now).version = st.version ∨
        (ensureState hash cfg (some st) now).version = st.version + 1) ∧
      st.version ≤ (ensureState hash cfg (some st) now).version) ∧
    (∀ (st : PersistedSpinState) (meta : SpinMetaInput) (now : String) (r : Nat)
        (s2 : PersistedSpinState), spinOnce st meta now r = .ok s2 →
      (s2 = st ∨ s2.version = st.version + 1) ∧ st.version ≤ s2.version) ∧
    (∀ (st : PersistedSpinState) (now : String),
      (resetSpinState st now).version = st.version + 1) ∧
    (∀ (items : List String) (st : PersistedSpinState) (now : String),
      (resetSpinStateFromItems hash items (some st) now).version = st.version + 1) ∧
    (∀ (st : PersistedSpinState) (b : Bool) (now : String),
      (setPublicOffline st b now).version = st.version + 1) ∧
    (∀ (st : PersistedSpinState) (b : Bool) (now : String),
      (setTestingMode st b now).version = st.version + 1) ∧
    (∀ (st : PersistedSpinState) (now : String),
      (clearSpinHistory st now).version = st.version + 1) ∧
    (∀ (st : PersistedSpinState) (now : String),
      (resetPoolAndClearHistory st now).version = st.version + 1) ∧
    (∀ (st : PersistedSpinState) (name now : String) (s2 : PersistedSpinState),
      setCurrentBuyersGiveawayItem st name now = .ok s2 → s2.version = st.version + 1) ∧
    (∀ (st : PersistedSpinState) (o : Option String) (now : String) (w : Nat)
        (s2 : PersistedSpinState),
      runBuyersGiveaway st o now w = .ok s2 → s2.version = st.version + 1) ∧
    (∀ (st : PersistedSpinState) (startStr username : String) (count : Int)
        (now : String) (indices : List Nat) (s2 : PersistedSpinState)
        (results : List SpinRecord),
      spinBulk st startStr username count now indices = .ok (s2, results) →
      s2.version = st.version + results.length ∧ st.version ≤ s2.version) := by
  refine ⟨?_, ?_, fun st now => rfl, fun items st now => rfl, fun st b now => rfl,
    fun st b now => rfl, fun st now => rfl, fun st now => rfl, ?_, ?_, ?_⟩
  · intro cfg st now
    refine ⟨?_, ?_, ?_⟩
    · intro hhash hvalid
      unfold getSpinState toPublicState ensureState
      simp only []
      rw [if_neg (by simp [hhash, hvalid])]
    · unfold ensureState
      simp only []
      split
      · exact Or.inr rfl
      · exact Or.inl rfl
    · unfold ensureState
      simp only []
      split
      · exact Nat.le_succ st.version
      · exact le_refl st.version
  · intro st meta now r s2 h
    unfold spinOnce at h
    simp only [] at h
    split at h
    · cases h
    · split at h
      · cases h
      · split at h
        · injection h with h
          subst h
          exact ⟨Or.inl rfl, le_refl _⟩
        · injection h with h
          subst h
          exact ⟨Or.inr rfl, Nat.le_succ st.version⟩
  · intro st name now s2 h
    unfold setCurrentBuyersGiveawayItem at h
    simp only [] at h
    split at h
    · cases h
    · injection h with h
      subst h
      rfl
  · intro st o now w s2 h
    unfold runBuyersGiveaway at h
    simp only [] at h
    split at h
    · cases h
    · split at h
      · cases h
      · injection h with h
        subst h
        rfl
  · intro st startStr username count now indices s2 results h
    unfold spinBulk at h
    simp only [] at h
    split at h
    · cases h
    · split at h
      · cases h
      · split at h
        · cases h
        · split at h
          · cases h
          · split at h
            · cases h
            · split at h
              · injection h with h
                rw [Prod.mk.injEq] at h
                obtain ⟨h1, h2⟩ := h
                subst h1
                subst h2
                exact ⟨by simp, le_refl _⟩
              · injection h with h
                rw [Prod.mk.injEq] at h
                obtain ⟨h1, h2⟩ := h
                subst h1
                subst h2
                refine ⟨?_, ?_⟩
                · show st.version + _ = st.version + _
                  rw [bulkDrawLoop_results_length]
                  simp
                · exact Nat.le_add_right st.version _

/-- C9: modelling `crypto.randomInt(pool.length)` as a uniformly random
value `r` in `[0, pool.length)` (its documented contract), the draw uses
`r` itself as the selected index: every index `r` in range yields a
successful draw removing exactly entry `r` (no index is structurally
excluded), and for each index `i` the fraction of random outcomes
selecting it is exactly `1 / pool.length` — no weighting by rarity or
value is applied. -/
theorem spinOnce_uniform_selection (st : PersistedSpinState) (meta : SpinMetaInput)
    (now : String)
    (hA : (sanitizeMeta meta).auctionNumber ≠ "")
    (hU : (sanitizeMeta meta).username ≠ "")
    (hgate : st.isTestingMode = true ∨
      auctionNumberExists st.history (sanitizeMeta meta).auctionNumber = false)
    (hpool : st.pool ≠ []) :
    (∀ r, r < st.pool.length →
      spinOnce st meta now r = .ok
        { st with
          pool := st.pool.eraseIdx r
          selectedItem := some (st.pool.getD r "")
          version := st.version + 1
          updatedAt := now
          lastSpin := some
            { auctionNumber := (sanitizeMeta meta).auctionNumber
              username := (sanitizeMeta meta).username
              item := st.pool.getD r ""
              spunAt := now
              version := st.version + 1 }
          history := ({ auctionNumber := (sanitizeMeta meta).auctionNumber
                        username := (sanitizeMeta meta).username
                        item := st.pool.getD r ""
                        spunAt := now
                        version := st.version + 1 : SpinRecord }
                      :: st.history).take MAX_HISTORY }) ∧
    (∀ i, i < st.pool.length →
      ((((Finset.range st.pool.length).filter (fun r => r = i)).card : ℚ)
          / (st.pool.length : ℚ)) = 1 / (st.pool.length : ℚ)) := by
  constructor
  · intro r hr
    unfold spinOnce
    simp only []
    rw [if_neg (by push_neg; exact ⟨hA, hU⟩)]
    rw [if_neg (by rcases hgate with h | h <;> simp [h])]
    rw [if_neg (by simpa [List.length_eq_zero] using hpool)]
  · intro i hi
    have hfilter : (Finset.range st.pool.length).filter (fun r => r = i) = {i} := by
      ext x
      simp only [Finset.mem_filter, Finset.mem_range, Finset.mem_singleton]
      constructor
      · rintro ⟨_, hx⟩; exact hx
      · rintro rfl; exact ⟨hi, rfl⟩
    rw [hfilter, Finset.card_singleton]
    norm_num

/-- C5 (spec-modelled): the bulk draw takes a starting auction number,
a username and a count that must lie in the inclusive range 1–10;
unless testing mode is on, all `count` sequential auction numbers are
checked against the history before any draw, so any collision makes the
whole call fail with zero draws performed and the pool untouched (the
operation returns an error and no state); and a successful call with a
non-empty pool stores the resulting batch in `recentBulkResults`. -/
theorem spinBulk_validation_and_results (st : PersistedSpinState)
    (startStr username : String) (count : Int) (now : String) (indices : List Nat)
    (startN : Nat)
    (hS : jsTrim startStr ≠ "") (hUser : jsTrim username ≠ "")
    (hparse : jsToNat (jsTrim startStr) = some startN) (hpos : startN ≠ 0) :
    ((count < 1 ∨ 10 < count) →
      spinBulk st startStr username count now indices
        = .error "Bulk spin count must be a whole number between 1 and 10.") ∧
    ((1 ≤ count ∧ count ≤ 10) → st.isTestingMode = false →
      (∃ k, k < count.toNat ∧
        auctionNumberExists st.history (toString (startN + k)) = true) →
      ∃ msg, spinBulk st startStr username count now indices = .error msg) ∧
    (∀ s2 results, st.pool ≠ [] →
      spinBulk st startStr username count now indices = .ok (s2, results) →
      s2.recentBulkResults = results) := by
  refine ⟨?_, ?_, ?_⟩
  · intro hrange
    unfold spinBulk
    simp only []
    rw [if_neg (by push_neg; exact ⟨hS, hUser⟩), hparse]
    simp only []
    rw [if_neg hpos]
    rw [if_pos (by rcases hrange with h | h
                   · exact Or.inl h
                   · exact Or.inr h)]
  · intro hrange hmode hcollide
    unfold spinBulk
    simp only []
    rw [if_neg (by push_neg; exact ⟨hS, hUser⟩), hparse]
    simp only []
    rw [if_neg hpos]
    rw [if_neg (by push_neg; omega)]
    rw [if_pos ?_]
    · exact ⟨_, rfl⟩
    · refine ⟨by simp [hmode], ?_⟩
      obtain ⟨k, hk, hcol⟩ := hcollide
      intro hnil
      rw [List.filter_eq_nil_iff] at hnil
      exact absurd hcol (by simpa using hnil k (List.mem_range.mpr hk))
  · intro s2 results hpool h
    unfold spinBulk at h
    simp only [] at h
    split at h
    · cases h
    · rw [hparse] at h
      simp only [] at h
      split at h
      · cases h
      · split at h
        · cases h
        · split at h
          · cases h
          · split at h
            · rename_i hlen
              exact absurd (List.length_eq_zero.mp hlen) hpool
            · injection h with h
              rw [Prod.mk.injEq] at h
              obtain ⟨h1, h2⟩ := h
              subst h1
              subst h2
              rfl

/-! ### Concrete fixtures for the witnesses -/

/-- A concrete stand-in for the SHA-256 content hash: the source only
compares hashes of item lists for equality, so any deterministic
function of the joined list exercises the same control flow. -/
def hashA : List String → String := fun items => String.intercalate "\n" items

def recA : SpinRecord :=
  { auctionNumber := "42", username := "alice", item := "Pack", spunAt := "t1", version := 2 }

def recB : SpinRecord :=
  { auctionNumber := "12", username := "bob", item := "Box", spunAt := "t2", version := 3 }

def recC : SpinRecord :=
  { auctionNumber := "7", username := "alice", item := "Pack", spunAt := "t3", version := 4 }

/-- A concrete stored state: three history entries, offline, testing
mode off, a pending giveaway prize, pool consistent with its items. -/
def stA : PersistedSpinState :=
  { items := ["Pack", "Pack", "Box"]
    pool := ["Pack", "Box"]
    selectedItem := some "Pack"
    version := 7
    updatedAt := "t3"
    configHash := hashA ["Pack", "Pack", "Box"]
    isOffline := true
    isTestingMode := false
    lastSpin := some recC
    history := [recC, recB, recA]
    recentBulkResults := [recB]
    buyersGiveaway := none
    currentBuyersGiveawayItem := some "Bonus" }

/-- State `stA` with an exhausted pool. -/
def stEmpty : PersistedSpinState := { stA with pool := [] }

/-- The state `runBuyersGiveaway stA none "t5" 1` produces. -/
def giveawayTarget : PersistedSpinState :=
  { stA with
    buyersGiveaway := some
      { itemName := "Bonus", winnerUsername := "bob", sourceEntryCount := 3
        ranAt := "t5", version := 8 }
    currentBuyersGiveawayItem := none
    version := 8
    updatedAt := "t5" }

/-! ### Witnesses -/

/-- Witness for C1 at a concrete stored state and fresh catalog whose
hash differs. -/
theorem ensureState_rebuild_preserves_bookkeeping_witness :
    (stA.configHash ≠ hashA ["Plush"] ∨ isPoolValidForItems stA.pool ["Plush"] = false) ∧
    ((ensureState hashA ["Plush"] (some stA) "t4").pool = ["Plush"] ∧
     (ensureState hashA ["Plush"] (some stA) "t4").selectedItem = none ∧
     (ensureState hashA ["Plush"] (some stA) "t4").version = stA.version + 1 ∧
     (ensureState hashA ["Plush"] (some stA) "t4").isOffline = stA.isOffline ∧
     (ensureState hashA ["Plush"] (some stA) "t4").isTestingMode = stA.isTestingMode ∧
     (ensureState hashA ["Plush"] (some stA) "t4").history = stA.history ∧
     (ensureState hashA ["Plush"] (some stA) "t4").recentBulkResults = stA.recentBulkResults ∧
     (ensureState hashA ["Plush"] (some stA) "t4").lastSpin = stA.lastSpin ∧
     (ensureState hashA ["Plush"] (some stA) "t4").buyersGiveaway = stA.buyersGiveaway ∧
     (ensureState hashA ["Plush"] (some stA) "t4").currentBuyersGiveawayItem
       = stA.currentBuyersGiveawayItem) :=
  ⟨Or.inl (by decide),
   ensureState_rebuild_preserves_bookkeeping hashA stA ["Plush"] "t4" (Or.inl (by decide))⟩

/-- Witness for C2 at a concrete reachable state (initial creation from
a one-item catalog). -/
theorem reachable_pool_valid_witness :
    isPoolValidForItems (ensureState hashA ["Pack"] none "t0").pool
      (ensureState hashA ["Pack"] none "t0").items = true :=
  reachable_pool_valid hashA _ (Reachable.init ["Pack"] "t0")

/-- Witness for C3: history of `stA` holds auction `"42"`, the input
`" 42 "` trims to it. -/
theorem spinOnce_duplicate_auction_witness :
    (sanitizeMeta ⟨" 42 ", "carol"⟩).auctionNumber ≠ "" ∧
    (sanitizeMeta ⟨" 42 ", "carol"⟩).username ≠ "" ∧
    auctionNumberExists stA.history (sanitizeMeta ⟨" 42 ", "carol"⟩).auctionNumber = true ∧
    ((stA.isTestingMode = false →
      spinOnce stA ⟨" 42 ", "carol"⟩ "t4" 0
        = .error (duplicateAuctionError (sanitizeMeta ⟨" 42 ", "carol"⟩).auctionNumber)) ∧
     (∃ s2, spinOnce { stA with isTestingMode := true } ⟨" 42 ", "carol"⟩ "t4" 0 = .ok s2)) :=
  ⟨by decide, by decide, by decide,
   spinOnce_duplicate_auction stA ⟨" 42 ", "carol"⟩ "t4" 0 (by decide) (by decide) (by decide)⟩

/-- Witness for C4 at `stA` with a fresh auction number and index 1. -/
theorem spinOnce_success_effects_witness :
    (sanitizeMeta ⟨"99", "dave"⟩).auctionNumber ≠ "" ∧
    (sanitizeMeta ⟨"99", "dave"⟩).username ≠ "" ∧
    auctionNumberExists stA.history (sanitizeMeta ⟨"99", "dave"⟩).auctionNumber = false ∧
    stA.pool ≠ [] ∧ 1 < stA.pool.length ∧
    (∃ s2, spinOnce stA ⟨"99", "dave"⟩ "t6" 1 = .ok s2 ∧
      s2.pool = stA.pool.eraseIdx 1 ∧
      s2.pool.length + 1 = stA.pool.length ∧
      s2.selectedItem = some (stA.pool.getD 1 "") ∧
      s2.lastSpin = some
        { auctionNumber := (sanitizeMeta ⟨"99", "dave"⟩).auctionNumber
          username := (sanitizeMeta ⟨"99", "dave"⟩).username
          item := stA.pool.getD 1 ""
          spunAt := "t6"
          version := stA.version + 1 } ∧
      s2.history = ({ auctionNumber := (sanitizeMeta ⟨"99", "dave"⟩).auctionNumber
                      username := (sanitizeMeta ⟨"99", "dave"⟩).username
                      item := stA.pool.getD 1 ""
                      spunAt := "t6"
                      version := stA.version + 1 : SpinRecord }
                    :: stA.history).take MAX_HISTORY ∧
      s2.version = stA.version + 1) :=
  ⟨by decide, by decide, by decide, by decide, by decide,
   spinOnce_success_effects stA ⟨"99", "dave"⟩ "t6" 1 (by decide) (by decide)
     (Or.inr (by decide)) (by decide) (by decide)⟩

/-- Witness for C6 at the exhausted-pool state. -/
theorem spinOnce_empty_pool_noop_witness :
    stEmpty.pool = [] ∧ spinOnce stEmpty ⟨"99", "dave"⟩ "t6" 0 = .ok stEmpty :=
  ⟨by decide,
   spinOnce_empty_pool_noop stEmpty ⟨"99", "dave"⟩ "t6" 0 (by decide) (by decide)
     (Or.inr (by decide)) (by decide)⟩

/-- Witness for C10: with an empty pool, a blank auction number still
yields the validation error, and a duplicate still yields the duplicate
error. -/
theorem spinOnce_checks_precede_empty_pool_witness :
    stEmpty.pool = [] ∧
    spinOnce stEmpty ⟨" ", "x"⟩ "t7" 0 = .error "Auction number and username are required." ∧
    spinOnce stEmpty ⟨"42", "x"⟩ "t7" 0
      = .error (duplicateAuctionError (sanitizeMeta ⟨"42", "x"⟩).auctionNumber) :=
  ⟨by decide,
   (spinOnce_checks_precede_empty_pool stEmpty ⟨" ", "x"⟩ "t7" 0 (by decide)).1
     (Or.inl (by decide)),
   (spinOnce_checks_precede_empty_pool stEmpty ⟨"42", "x"⟩ "t7" 0 (by decide)).2
     (by decide) (by decide) (by decide) (by decide)⟩

def bulkRec1 : SpinRecord :=
  { auctionNumber := "100", username := "bob", item := "Pack", spunAt := "t5", version := 8 }

def bulkRec2 : SpinRecord :=
  { auctionNumber := "101", username := "bob", item := "Box", spunAt := "t5", version := 9 }

/-- The state `spinBulk stA "100" "bob" 2 "t5" [0, 0]` produces. -/
def bulkTarget : PersistedSpinState :=
  { stA with
    pool := []
    history := [bulkRec2, bulkRec1, recC, recB, recA]
    recentBulkResults := [bulkRec1, bulkRec2]
    selectedItem := some "Box"
    lastSpin := some bulkRec2
    version := 9
    updatedAt := "t5" }

/-- Witness for C5: a bulk draw of count 5 starting at `"10"` collides
with the stored auction `"12"` and fails entirely; an out-of-range
count is rejected; a clean bulk draw of 2 stores its batch in
`recentBulkResults`. -/
theorem spinBulk_validation_and_results_witness :
    jsTrim "10" ≠ "" ∧ jsToNat (jsTrim "10") = some 10 ∧ stA.isTestingMode = false ∧
    (∃ msg, spinBulk stA "10" "bob" 5 "t5" [0] = .error msg) ∧
    spinBulk stA "13" "bob" 20 "t5" [0]
      = .error "Bulk spin count must be a whole number between 1 and 10." ∧
    (∃ s2, spinBulk stA "100" "bob" 2 "t5" [0, 0] = .ok (s2, s2.recentBulkResults)) := by
  refine ⟨by decide, by decide, by decide, ?_, ?_, ?_⟩
  · exact (spinBulk_validation_and_results stA "10" "bob" 5 "t5" [0] 10
      (by decide) (by decide) (by decide) (by decide)).2.1
      (by decide) (by decide) ⟨2, by decide, by decide⟩
  · exact (spinBulk_validation_and_results stA "13" "bob" 20 "t5" [0] 13
      (by decide) (by decide) (by decide) (by decide)).1 (by decide)
  · have hEq : spinBulk stA "100" "bob" 2 "t5" [0, 0]
        = .ok (bulkTarget, [bulkRec1, bulkRec2]) := by rfl
    have hR := (spinBulk_validation_and_results stA "100" "bob" 2 "t5" [0, 0] 100
      (by decide) (by decide) (by decide) (by decide)).2.2
      bulkTarget [bulkRec1, bulkRec2] (by decide) hEq
    exact ⟨bulkTarget, by rw [hR]; exact hEq⟩

/-- Witness for C7: running the giveaway on `stA` (override absent,
pending prize `"Bonus"`, three history entries) draws `"bob"`, records
three entries, clears the pending prize and bumps the version. -/
theorem runBuyersGiveaway_spec_witness :
    runBuyersGiveaway stA none "t5" 1 = .ok giveawayTarget ∧
    (giveawayTarget.buyersGiveaway = some
       { itemName := resolveGiveawayItemName none stA.currentBuyersGiveawayItem
         winnerUsername := (stA.history.map (fun record => record.username)).getD 1 ""
         sourceEntryCount := (stA.history.map (fun record => record.username)).length
         ranAt := "t5"
         version := stA.version + 1 } ∧
     giveawayTarget.currentBuyersGiveawayItem = none ∧
     giveawayTarget.version = stA.version + 1) := by
  have hEq : runBuyersGiveaway stA none "t5" 1 = .ok giveawayTarget := by rfl
  exact ⟨hEq, (runBuyersGiveaway_spec stA none "t5" 1).2.2.2.2 giveawayTarget hEq⟩

/-- Counterexample for C8 as frozen: a single bulk-draw call of count 2
on `stA` is one mutating engine call yet increases the version by two,
refuting that the version grows by exactly one per mutating call. -/
theorem version_per_call_counterexample :
    spinBulk stA "100" "bob" 2 "t5" [0, 0] = .ok (bulkTarget, [bulkRec1, bulkRec2]) ∧
    bulkTarget.version = stA.version + 2 ∧
    ¬ bulkTarget.version = stA.version + 1 :=
  ⟨rfl, rfl, by decide⟩

/-- Witness for C8 (amended): on `stA`, a read that needs no
reconciliation keeps the version, a reset bumps it by exactly one, and
a bulk draw of two bumps it by exactly its batch length. -/
theorem version_monotonic_amended_witness :
    stA.configHash = hashA ["Pack", "Pack", "Box"] ∧
    isPoolValidForItems stA.pool ["Pack", "Pack", "Box"] = true ∧
    (getSpinState hashA ["Pack", "Pack", "Box"] (some stA) "t9").version = stA.version ∧
    (resetSpinState stA "t9").version = stA.version + 1 ∧
    (bulkTarget.version = stA.version + [bulkRec1, bulkRec2].length ∧
     stA.version ≤ bulkTarget.version) :=
  ⟨rfl, by decide,
   ((version_monotonic_amended hashA).1 ["Pack", "Pack", "Box"] stA "t9").1 rfl (by decide),
   (version_monotonic_amended hashA).2.2.1 stA "t9",
   (version_monotonic_amended hashA).2.2.2.2.2.2.2.2.2.2
     stA "100" "bob" 2 "t5" [0, 0] bulkTarget [bulkRec1, bulkRec2] rfl⟩

/-- Witness for C9 on the two-entry pool of `stA`: index 0 is reachable
with the draw removing exactly entry 0, and index 1 receives exactly
the fraction `1 / 2` of the uniform outcomes. -/
theorem spinOnce_uniform_selection_witness :
    stA.pool ≠ [] ∧
    spinOnce stA ⟨"77", "erin"⟩ "t8" 0 = .ok
      { stA with
        pool := stA.pool.eraseIdx 0
        selectedItem := some (stA.pool.getD 0 "")
        version := stA.version + 1
        updatedAt := "t8"
        lastSpin := some
          { auctionNumber := (sanitizeMeta ⟨"77", "erin"⟩).auctionNumber
            username := (sanitizeMeta ⟨"77", "erin"⟩).username
            item := stA.pool.getD 0 ""
            spunAt := "t8"
            version := stA.version + 1 }
        history := ({ auctionNumber := (sanitizeMeta ⟨"77", "erin"⟩).auctionNumber
                      username := (sanitizeMeta ⟨"77", "erin"⟩).username
                      item := stA.pool.getD 0 ""
                      spunAt := "t8"
                      version := stA.version + 1 : SpinRecord }
                    :: stA.history).take MAX_HISTORY } ∧
    ((((Finset.range stA.pool.length).filter (fun r => r = 1)).card : ℚ)
        / (stA.pool.length : ℚ)) = 1 / (stA.pool.length : ℚ) := by
  refine ⟨by decide, ?_, ?_⟩
  · exact (spinOnce_uniform_selection stA ⟨"77", "erin"⟩ "t8"
      (by decide) (by decide) (Or.inr (by decide)) (by decide)).1 0 (by decide)
  · exact (spinOnce_uniform_selection stA ⟨"77", "erin"⟩ "t8"
      (by decide) (by decide) (Or.inr (by decide)) (by decide)).2 1 (by decide)

end EbayRandomiser
